import Mathlib

/-!
Shallow embedding of the Logux base server's action-processing and
channel-subscription engine.  The data shapes (`ServerMeta`, the control
actions, `Resend`, the callback records) are translated from
`src/base-server/index.d.ts`.  The repository ships only the interface
declarations for the behavioural engine, so the pipelines, the broadcast
router and the connection registry are modelled from the specification
(`spec.md` sections 4.2 to 4.5), as marked on each definition.
-/

namespace Logux

/-- Processing status of an action; `ServerMeta.status` in
`src/base-server/index.d.ts` lines 10 to 14. -/
inductive Status where
  | waiting
  | processed
  | error
deriving DecidableEq, Repr

/-- Totally ordered action identifier composed of time, originating node and
a local counter (spec section 3, Meta `id`). -/
structure ActionId where
  time : Nat
  origin : String
  counter : Nat
deriving DecidableEq, Repr

/-- Actions: the four wire-visible control actions from
`src/base-server/index.d.ts` lines 62 to 91, plus application actions, which
carry an arbitrary `type` discriminant and an opaque payload. -/
inductive Action where
  | subscribe (channel : String) (since : Option Nat)
  | unsubscribe (channel : String)
  | processedAck (id : ActionId)
  | undo (id : ActionId) (reason : String)
  | app (ty : String) (payload : String)
deriving DecidableEq, Repr

/-- Discriminant `type` string of an action. -/
def Action.type : Action → String
  | .subscribe _ _ => "logux/subscribe"
  | .unsubscribe _ => "logux/unsubscribe"
  | .processedAck _ => "logux/processed"
  | .undo _ _ => "logux/undo"
  | .app ty _ => ty

/-- Meta envelope, from `ServerMeta` in `src/base-server/index.d.ts`
lines 10 to 60: status, receiving server, and the optional
singular/plural resend-target fields. -/
structure ServerMeta where
  id : ActionId
  time : Nat
  status : Option Status := none
  server : String
  channels : Option (List String) := none
  channel : Option String := none
  users : Option (List String) := none
  user : Option String := none
  clients : Option (List String) := none
  client : Option String := none
  nodes : Option (List String) := none
  node : Option String := none
deriving DecidableEq, Repr

/-- A connected client: transport handle, claimed node identity, stable
client identity, optional user identity and authentication state
(spec section 3, Client). -/
structure ServerClient where
  conn : Nat
  nodeId : String
  clientId : String
  userId : Option String
  authenticated : Bool
deriving DecidableEq, Repr

/-- Channel subscription `(client, channel, params, filter?)`
(spec section 3, Channel Subscription). -/
structure Subscription where
  nodeId : String
  channel : String
  params : List (String × String)
  filter : Option (Action → ServerMeta → Bool)

/-- Resend targets returned by a `resend` callback, from `Resend` in
`src/base-server/index.d.ts` lines 174 to 183. -/
structure Resend where
  channel : Option String := none
  channels : Option (List String) := none
  user : Option String := none
  users : Option (List String) := none
  client : Option String := none
  clients : Option (List String) := none
  node : Option String := none
  nodes : Option (List String) := none

/-- Modelled from the spec: section 3 Meta, "each singular form is sugar for
a one-element plural; absent fields mean no targets of that kind".  Collects
the targets of one kind out of the singular and plural fields. -/
def kindTargets : Option String → Option (List String) → List String
  | some v, some vs => vs ++ [v]
  | some v, none => [v]
  | none, some vs => vs
  | none, none => []

/-- Channel targets of a meta. -/
def channelTargets (m : ServerMeta) : List String :=
  kindTargets m.channel m.channels

/-- User targets of a meta. -/
def userTargets (m : ServerMeta) : List String :=
  kindTargets m.user m.users

/-- Client targets of a meta. -/
def clientTargets (m : ServerMeta) : List String :=
  kindTargets m.client m.clients

/-- Node targets of a meta. -/
def nodeTargets (m : ServerMeta) : List String :=
  kindTargets m.node m.nodes

/-- Modelled from the spec: the broadcast router receives the meta "with
resolved resend target fields" (section 4.4); resolution rewrites every
singular field into its one-element plural reading. -/
def normalizeResend (m : ServerMeta) : ServerMeta :=
  { m with
    channel := none, channels := some (channelTargets m),
    user := none, users := some (userTargets m),
    client := none, clients := some (clientTargets m),
    node := none, nodes := some (nodeTargets m) }

/-- Evaluation of an optional per-subscription filter predicate: an absent
filter admits every action (spec section 4.4). -/
def filterAdmits (f : Option (Action → ServerMeta → Bool)) (a : Action)
    (m : ServerMeta) : Bool :=
  match f with
  | none => true
  | some p => p a m

/-- Modelled from the spec: section 4.4, a subscription admits a delivery to
client `c` when it belongs to `c`, its channel is listed in the meta's
channel targets, and its filter (if any) admits the action. -/
def subAdmits (s : Subscription) (a : Action) (m : ServerMeta)
    (c : ServerClient) : Bool :=
  decide (s.nodeId = c.nodeId) && decide (s.channel ∈ channelTargets m) &&
    filterAdmits s.filter a m

/-- Modelled from the spec: section 4.4, the candidate test for one client —
the union of the channel-subscription, user, node and client target kinds. -/
def metaMatches (subs : List Subscription) (a : Action) (m : ServerMeta)
    (c : ServerClient) : Bool :=
  subs.any (fun s => subAdmits s a m c) ||
  (match c.userId with
   | none => false
   | some u => decide (u ∈ userTargets m)) ||
  decide (c.nodeId ∈ nodeTargets m) ||
  decide (c.clientId ∈ clientTargets m)

/-- Modelled from the spec: section 4.4 Broadcast Router.  Computes the set
of connected clients that receive the action: the registry filtered by the
candidate test, so each connected client is delivered to at most once even
when several target kinds match. -/
def broadcastTargets (registry : List ServerClient) (subs : List Subscription)
    (a : Action) (m : ServerMeta) : List ServerClient :=
  registry.filter (metaMatches subs a (normalizeResend m))

/-- Action type callbacks, from `ActionCallbacks` in
`src/base-server/index.d.ts` lines 427 to 432.  A rejection or a thrown
failure of `access` or `process` is an `Except.error` carrying the thrown
reason; `fin` records whether a `finally` callback is registered (its body
is pure cleanup and returns nothing). -/
structure ActionCallbacks where
  access : Action → ServerMeta → Except String Bool
  resend : Option (Action → ServerMeta → Resend) := none
  process : Option (Action → ServerMeta → Except String Unit) := none
  fin : Bool := false

/-- Channel callbacks, from `ChannelCallbacks` in
`src/base-server/index.d.ts` lines 434 to 439: `access`, an optional
`filter` creator producing a per-subscription predicate, an optional `init`
emitting bootstrap actions, and the presence of a `finally` callback. -/
structure ChannelCallbacks where
  access : List (String × String) → Action → ServerMeta → Except String Bool
  filter : Option (List (String × String) → Action → ServerMeta →
    Option (Action → ServerMeta → Bool)) := none
  init : Option (List (String × String) → Action → ServerMeta →
    Except String (List Action)) := none
  fin : Bool := false

/-- Registration tables of one server: the per-type and per-channel callback
registries with their fallbacks (`type`, `otherType`, `channel`,
`otherChannel` in `src/base-server/index.d.ts` lines 629 to 718). -/
structure ServerConfig where
  types : List (String × ActionCallbacks)
  otherType : Option ActionCallbacks := none
  channels : List (String × ChannelCallbacks)
  otherChannel : Option ChannelCallbacks := none

/-- Modelled from the spec: section 4.1, type resolution — the first exact
registration for the type, else the registered `otherType` fallback. -/
def resolveType (cfg : ServerConfig) (ty : String) : Option ActionCallbacks :=
  match cfg.types.find? (fun p => p.1 == ty) with
  | some p => some p.2
  | none => cfg.otherType

/-- Splits a channel name on `/` characters, accumulating the current
segment in reverse. -/
def splitAux : List Char → List Char → List String
  | [], acc => [String.mk acc.reverse]
  | c :: cs, acc =>
      if c == '/' then String.mk acc.reverse :: splitAux cs []
      else splitAux cs (c :: acc)

/-- Segments of a channel name or pattern. -/
def segsOf (s : String) : List String := splitAux s.toList []

/-- Whether a pattern segment is a `:param` placeholder. -/
def isParamSeg (p : String) : Bool :=
  match p.toList with
  | c :: _ => c == ':'
  | [] => false

/-- Name of a `:param` placeholder segment. -/
def paramKey (p : String) : String := String.mk (p.toList.drop 1)

/-- Modelled from the spec: section 4.1, named-segment pattern matching —
`user/:id` against `user/42` yields the binding `id := 42`. -/
def matchSegs : List String → List String → Option (List (String × String))
  | [], [] => some []
  | p :: ps, n :: ns =>
      if isParamSeg p then
        match matchSegs ps ns with
        | some acc => some ((paramKey p, n) :: acc)
        | none => none
      else if p == n then matchSegs ps ns
      else none
  | _, _ => none

/-- Matches a channel pattern against a concrete channel name. -/
def matchPattern (pat name : String) : Option (List (String × String)) :=
  matchSegs (segsOf pat) (segsOf name)

/-- Modelled from the spec: section 4.1, channel resolution — the first
registered pattern that matches the name, with its parameter bindings, else
the `otherChannel` fallback with empty bindings, else nothing. -/
def resolveChannel (cfg : ServerConfig) (name : String) :
    Option (ChannelCallbacks × List (String × String)) :=
  match cfg.channels.find? (fun p => (matchPattern p.1 name).isSome) with
  | some p =>
      match matchPattern p.1 name with
      | some ps => some (p.2, ps)
      | none => none
  | none =>
      match cfg.otherChannel with
      | some cb => some (cb, [])
      | none => none

/-- One entry of the external append-only log. -/
structure LogEntry where
  action : Action
  meta : ServerMeta
deriving DecidableEq, Repr

/-- Identifiers already admitted to the log; the log deduplicates by id. -/
def logIds (log : List LogEntry) : List ActionId :=
  log.map (fun e => e.meta.id)

/-- A message emitted to one node (acknowledgements and `sendBack` data). -/
structure Emit where
  target : String
  action : Action
deriving DecidableEq, Repr

/-- Reporter signals fired at pipeline milestones (`Reporters` in
`src/base-server/index.d.ts` lines 113 to 172). -/
inductive Signal where
  | denied (id : ActionId)
  | unknownType (ty : String) (id : ActionId)
  | wrongChannel (id : ActionId) (channel : String)
  | processedSig (id : ActionId)
  | subscribed (id : ActionId) (channel : String)
  | unsubscribed (id : ActionId) (channel : String)
deriving DecidableEq, Repr

/-- Observable outcome of running one action through the engine: the status
written by this run (if any) with its write count, the messages sent back to
nodes, the broadcast delivery set, the callback invocation counts, and the
resulting log and subscription table. -/
structure PipelineResult where
  status : Option Status
  statusWrites : Nat
  emitted : List Emit
  delivered : List ServerClient
  processRuns : Nat
  finallyRuns : Nat
  accessRuns : Nat
  log : List LogEntry
  subs : List Subscription
  signals : List Signal

/-- Modelled from the spec: section 4.2 step 2, merging a `resend`
callback's output into the meta's resend fields — union, not overwrite. -/
def applyResend (m : ServerMeta) (r : Resend) : ServerMeta :=
  { m with
    channel := none,
    channels := some (channelTargets m ++ kindTargets r.channel r.channels),
    user := none,
    users := some (userTargets m ++ kindTargets r.user r.users),
    client := none,
    clients := some (clientTargets m ++ kindTargets r.client r.clients),
    node := none,
    nodes := some (nodeTargets m ++ kindTargets r.node r.nodes) }

/-- Modelled from the spec: section 3 Meta and section 4.2 — the meta is
attached at ingestion time with status `waiting`. -/
def ingestMeta (id : ActionId) (time : Nat) (server : String) : ServerMeta :=
  { id := id, time := time, status := some Status.waiting, server := server }

/-- Modelled from the spec: section 4.2 Action Pipeline.  Access check, then
resend merge, then append with duplicate-id short circuit, then process with
`logux/processed` or `logux/undo` acknowledgement to the originator, then
broadcast regardless of the process outcome; `finally` runs on every path
that reaches the append stage or fails before it, but not on the silent
duplicate drop. -/
def runAction (registry : List ServerClient) (subs : List Subscription)
    (cfg : ServerConfig) (origin : String) (log : List LogEntry)
    (a : Action) (m : ServerMeta) : PipelineResult :=
  match resolveType cfg a.type with
  | none =>
      { status := some Status.error, statusWrites := 1,
        emitted := [⟨origin, Action.undo m.id "unknownType"⟩],
        delivered := [], processRuns := 0, finallyRuns := 0, accessRuns := 0,
        log := log, subs := subs,
        signals := [Signal.unknownType a.type m.id] }
  | some cb =>
      match cb.access a m with
      | .error reason =>
          { status := some Status.error, statusWrites := 1,
            emitted := [⟨origin, Action.undo m.id reason⟩],
            delivered := [], processRuns := 0,
            finallyRuns := if cb.fin then 1 else 0,
            accessRuns := 1, log := log, subs := subs, signals := [] }
      | .ok false =>
          { status := some Status.error, statusWrites := 1,
            emitted := [⟨origin, Action.undo m.id "denied"⟩],
            delivered := [], processRuns := 0,
            finallyRuns := if cb.fin then 1 else 0,
            accessRuns := 1, log := log, subs := subs,
            signals := [Signal.denied m.id] }
      | .ok true =>
          let m1 := match cb.resend with
            | none => m
            | some rs => applyResend m (rs a m)
          if m.id ∈ logIds log then
            { status := none, statusWrites := 0, emitted := [],
              delivered := [], processRuns := 0, finallyRuns := 0,
              accessRuns := 1, log := log, subs := subs, signals := [] }
          else
            match cb.process with
            | none =>
                { status := some Status.processed, statusWrites := 1,
                  emitted := [⟨origin, Action.processedAck m.id⟩],
                  delivered := broadcastTargets registry subs a m1,
                  processRuns := 0,
                  finallyRuns := if cb.fin then 1 else 0,
                  accessRuns := 1,
                  log := log ++ [⟨a, { m1 with status := some Status.processed }⟩],
                  subs := subs,
                  signals := [Signal.processedSig m.id] }
            | some proc =>
                match proc a m1 with
                | .ok _ =>
                    { status := some Status.processed, statusWrites := 1,
                      emitted := [⟨origin, Action.processedAck m.id⟩],
                      delivered := broadcastTargets registry subs a m1,
                      processRuns := 1,
                      finallyRuns := if cb.fin then 1 else 0,
                      accessRuns := 1,
                      log := log ++ [⟨a, { m1 with status := some Status.processed }⟩],
                      subs := subs,
                      signals := [Signal.processedSig m.id] }
                | .error _ =>
                    { status := some Status.error, statusWrites := 1,
                      emitted := [⟨origin, Action.undo m.id "error"⟩],
                      delivered := broadcastTargets registry subs a m1,
                      processRuns := 1,
                      finallyRuns := if cb.fin then 1 else 0,
                      accessRuns := 1,
                      log := log ++ [⟨a, { m1 with status := some Status.error }⟩],
                      subs := subs,
                      signals := [] }

/-- Modelled from the spec: section 4.3 Channel Pipeline, subscribe path.
Pattern resolution failure emits the `wrongChannel` signal and an undo;
channel `access` failure emits `logux/undo` with reason `denied` (or the
thrown reason) and creates no Subscription; on success the filter creator
runs, the Subscription is registered once `init` completes, `init`'s
bootstrap actions are sent back to the requesting client only, and the
subscribe action is consumed — it is never handed to the broadcast
router. -/
def runSubscribe (cfg : ServerConfig) (origin : String)
    (subs : List Subscription) (log : List LogEntry) (ch : String)
    (since : Option Nat) (m : ServerMeta) : PipelineResult :=
  match resolveChannel cfg ch with
  | none =>
      { status := some Status.error, statusWrites := 1,
        emitted := [⟨origin, Action.undo m.id "wrongChannel"⟩],
        delivered := [], processRuns := 0, finallyRuns := 0, accessRuns := 0,
        log := log, subs := subs,
        signals := [Signal.wrongChannel m.id ch] }
  | some (cb, ps) =>
      match cb.access ps (Action.subscribe ch since) m with
      | .error reason =>
          { status := some Status.error, statusWrites := 1,
            emitted := [⟨origin, Action.undo m.id reason⟩],
            delivered := [], processRuns := 0,
            finallyRuns := if cb.fin then 1 else 0,
            accessRuns := 1, log := log, subs := subs, signals := [] }
      | .ok false =>
          { status := some Status.error, statusWrites := 1,
            emitted := [⟨origin, Action.undo m.id "denied"⟩],
            delivered := [], processRuns := 0,
            finallyRuns := if cb.fin then 1 else 0,
            accessRuns := 1, log := log, subs := subs,
            signals := [Signal.denied m.id] }
      | .ok true =>
          let fpred := match cb.filter with
            | none => none
            | some fc => fc ps (Action.subscribe ch since) m
          match cb.init with
          | none =>
              { status := some Status.processed, statusWrites := 1,
                emitted := [⟨origin, Action.processedAck m.id⟩],
                delivered := [], processRuns := 0,
                finallyRuns := if cb.fin then 1 else 0,
                accessRuns := 1, log := log,
                subs := subs ++ [⟨origin, ch, ps, fpred⟩],
                signals := [Signal.subscribed m.id ch] }
          | some ini =>
              match ini ps (Action.subscribe ch since) m with
              | .ok boots =>
                  { status := some Status.processed, statusWrites := 1,
                    emitted := boots.map (fun b => ⟨origin, b⟩) ++
                      [⟨origin, Action.processedAck m.id⟩],
                    delivered := [], processRuns := 0,
                    finallyRuns := if cb.fin then 1 else 0,
                    accessRuns := 1, log := log,
                    subs := subs ++ [⟨origin, ch, ps, fpred⟩],
                    signals := [Signal.subscribed m.id ch] }
              | .error _ =>
                  { status := some Status.error, statusWrites := 1,
                    emitted := [⟨origin, Action.undo m.id "error"⟩],
                    delivered := [], processRuns := 0,
                    finallyRuns := if cb.fin then 1 else 0,
                    accessRuns := 1, log := log, subs := subs,
                    signals := [] }

/-- Modelled from the spec: section 4.3 Channel Pipeline, unsubscribe path.
No access check is performed; the matching Subscriptions for that
client and channel are removed; the channel's `finally` runs if defined. -/
def runUnsubscribe (cfg : ServerConfig) (origin : String)
    (subs : List Subscription) (log : List LogEntry) (ch : String)
    (m : ServerMeta) : PipelineResult :=
  { status := some Status.processed, statusWrites := 1,
    emitted := [⟨origin, Action.processedAck m.id⟩],
    delivered := [], processRuns := 0,
    finallyRuns :=
      match resolveChannel cfg ch with
      | some (cb, _) => if cb.fin then 1 else 0
      | none => 0,
    accessRuns := 0, log := log,
    subs := subs.filter (fun s => !(s.nodeId == origin && s.channel == ch)),
    signals := [Signal.unsubscribed m.id ch] }

/-- Modelled from the spec: section 2 control flow — `logux/subscribe` and
`logux/unsubscribe` actions are handed to the Channel Pipeline instead of
Process; every other action runs the Action Pipeline. -/
def handle (registry : List ServerClient) (subs : List Subscription)
    (cfg : ServerConfig) (origin : String) (log : List LogEntry)
    (a : Action) (m : ServerMeta) : PipelineResult :=
  match a with
  | .subscribe ch since => runSubscribe cfg origin subs log ch since m
  | .unsubscribe ch => runUnsubscribe cfg origin subs log ch m
  | other => runAction registry subs cfg origin log other m

/-- Events fired by the connection registry while installing a client. -/
inductive ConnEvent where
  | zombie (nodeId : String)
  | installed (nodeId : String)
deriving DecidableEq, Repr

/-- Association lookup in the connection registry. -/
def regLookup : List (String × ServerClient) → String → Option ServerClient
  | [], _ => none
  | p :: ps, n => if p.1 == n then some p.2 else regLookup ps n

/-- Modelled from the spec: section 4.5 Connection Registry.  A new
authenticated connection claiming an already-present `nodeId` closes the
prior connection — the `zombie` signal fires before the new connection is
installed — and replaces it in the registry. -/
def connect (reg : List (String × ServerClient)) (c : ServerClient) :
    List (String × ServerClient) × List ConnEvent :=
  match regLookup reg c.nodeId with
  | some _ =>
      ((c.nodeId, c) :: reg.filter (fun p => !(p.1 == c.nodeId)),
       [ConnEvent.zombie c.nodeId, ConnEvent.installed c.nodeId])
  | none => ((c.nodeId, c) :: reg, [ConnEvent.installed c.nodeId])

/-- Whether an emitted action is a `logux/processed` or `logux/undo`
acknowledgement carrying the given action id. -/
def isAck (id : ActionId) (e : Emit) : Bool :=
  match e.action with
  | .processedAck i => decide (i = id)
  | .undo i _ => decide (i = id)
  | _ => false

/-- Callback record that denies every action. -/
def denyCb : ActionCallbacks := { access := fun _ _ => Except.ok false }

/-- Server with one registered type `X` whose access callback denies. -/
def cfgDeny : ServerConfig := { types := [("X", denyCb)], channels := [] }

/-- A concrete ingested meta. -/
def metaC1 : ServerMeta := ingestMeta ⟨1, "n1", 0⟩ 1 "server:s"

/-- A concrete connected client subscribed to channel `C`. -/
def cexClient : ServerClient := ⟨1, "n1", "1:a", some "u9", true⟩

/-- A subscription of that client to `C` whose filter rejects every
action. -/
def cexSub : Subscription := ⟨"n1", "C", [], some (fun _ _ => false)⟩

/-- A meta whose resend targets name channel `C`. -/
def cexMeta : ServerMeta :=
  { id := ⟨1, "n1", 0⟩, time := 1, status := some Status.waiting,
    server := "server:s", channels := some ["C"] }

/-- Connected client with user id `u1` and no subscriptions. -/
def wClientA : ServerClient := ⟨1, "nA", "1:a", some "u1", true⟩

/-- Connected client with user id `u2` and no subscriptions. -/
def wClientB : ServerClient := ⟨2, "nB", "2:b", some "u2", true⟩

/-- Connected client with user id `u3`. -/
def wClientC : ServerClient := ⟨3, "nC", "3:c", some "u3", true⟩

/-- A meta whose resend targets are the users `u1` and `u2`. -/
def wMeta : ServerMeta :=
  { id := ⟨2, "nA", 0⟩, time := 2, status := some Status.waiting,
    server := "server:s", users := some ["u1", "u2"] }

/-- Callback record that accepts every action, has a failing process
callback, and registers a finally callback. -/
def cb3 : ActionCallbacks :=
  { access := fun _ _ => Except.ok true,
    process := some (fun _ _ => Except.error "boom"), fin := true }

/-- Server with one registered type `X` using `cb3`. -/
def cfg3 : ServerConfig := { types := [("X", cb3)], channels := [] }

/-- A concrete ingested meta. -/
def meta3 : ServerMeta := ingestMeta ⟨3, "n1", 0⟩ 3 "server:s"

/-- Callback record that accepts every action, has a succeeding process
callback, and registers a finally callback. -/
def dupCb : ActionCallbacks :=
  { access := fun _ _ => Except.ok true,
    process := some (fun _ _ => Except.ok ()), fin := true }

/-- Server with one registered type `X` using `dupCb`. -/
def cfgDup : ServerConfig := { types := [("X", dupCb)], channels := [] }

/-- A concrete ingested meta. -/
def metaD : ServerMeta := ingestMeta ⟨5, "n1", 0⟩ 5 "server:s"

/-- A log that already holds an action with `metaD`'s id. -/
def logD : List LogEntry := [⟨Action.app "X" "p", metaD⟩]

/-- A concrete ingested meta. -/
def meta5 : ServerMeta := ingestMeta ⟨6, "n1", 0⟩ 6 "server:s"

/-- A server with no registrations at all. -/
def cfgEmpty : ServerConfig := { types := [], channels := [] }

/-- A concrete ingested meta. -/
def meta9 : ServerMeta := ingestMeta ⟨9, "n1", 0⟩ 9 "server:s"

/-- Channel callbacks that admit every subscriber and register a finally
callback. -/
def finChanCb : ChannelCallbacks :=
  { access := fun _ _ _ => Except.ok true, fin := true }

/-- Server with one registered channel pattern `user/:id`. -/
def cfgChan : ServerConfig :=
  { types := [], channels := [("user/:id", finChanCb)] }

/-- A concrete ingested meta. -/
def meta8 : ServerMeta := ingestMeta ⟨8, "n1", 0⟩ 8 "server:s"

/-- A subscription table holding two subscriptions of `n1` and one of
`n2`. -/
def subs8 : List Subscription :=
  [⟨"n1", "user/42", [("id", "42")], none⟩, ⟨"n1", "other", [], none⟩,
   ⟨"n2", "user/42", [("id", "42")], none⟩]

/-- A connected client holding node id `n1` on transport handle 1. -/
def oldClient : ServerClient := ⟨1, "n1", "1:a", some "u1", true⟩

/-- A new connection claiming the same node id `n1` on transport
handle 2. -/
def newClient : ServerClient := ⟨2, "n1", "1:b", some "u1", true⟩

/-- A registry holding only `oldClient`. -/
def reg10 : List (String × ServerClient) := [("n1", oldClient)]

theorem channelTargets_normalize (m : ServerMeta) :
    channelTargets (normalizeResend m) = channelTargets m := rfl

theorem userTargets_normalize (m : ServerMeta) :
    userTargets (normalizeResend m) = userTargets m := rfl

theorem clientTargets_normalize (m : ServerMeta) :
    clientTargets (normalizeResend m) = clientTargets m := rfl

theorem nodeTargets_normalize (m : ServerMeta) :
    nodeTargets (normalizeResend m) = nodeTargets m := rfl

/-- C6: for every action and every resend-target kind, a meta carrying the
singular field with value `v` produces exactly the same broadcast delivery
set as the same meta carrying the plural field with the one-element list
`[v]`, and absent fields contribute no targets of that kind. -/
theorem singular_plural_targets_equiv (registry : List ServerClient)
    (subs : List Subscription) (a : Action) (m : ServerMeta) (v : String) :
    broadcastTargets registry subs a { m with channel := some v, channels := none } =
      broadcastTargets registry subs a { m with channels := some [v], channel := none } ∧
    broadcastTargets registry subs a { m with user := some v, users := none } =
      broadcastTargets registry subs a { m with users := some [v], user := none } ∧
    broadcastTargets registry subs a { m with client := some v, clients := none } =
      broadcastTargets registry subs a { m with clients := some [v], client := none } ∧
    broadcastTargets registry subs a { m with node := some v, nodes := none } =
      broadcastTargets registry subs a { m with nodes := some [v], node := none } ∧
    channelTargets { m with channel := none, channels := none } = [] ∧
    userTargets { m with user := none, users := none } = [] ∧
    clientTargets { m with client := none, clients := none } = [] ∧
    nodeTargets { m with node := none, nodes := none } = [] :=
  ⟨rfl, rfl, rfl, rfl, rfl, rfl, rfl, rfl⟩

/-- C1: when a registered action type's access callback returns `false`,
the pipeline emits exactly one `logux/undo` carrying the action's id and
reason `denied`, delivered only to the originating client, sets the status
to `error`, broadcasts to nobody, and never invokes `process`. -/
theorem access_denied_single_undo (registry : List ServerClient)
    (subs : List Subscription) (cfg : ServerConfig) (origin : String)
    (log : List LogEntry) (ty payload : String) (m : ServerMeta)
    (cb : ActionCallbacks)
    (hres : resolveType cfg ty = some cb)
    (hacc : cb.access (Action.app ty payload) m = Except.ok false) :
    (handle registry subs cfg origin log (Action.app ty payload) m).emitted =
      [⟨origin, Action.undo m.id "denied"⟩] ∧
    (handle registry subs cfg origin log (Action.app ty payload) m).status =
      some Status.error ∧
    (handle registry subs cfg origin log (Action.app ty payload) m).processRuns = 0 ∧
    (handle registry subs cfg origin log (Action.app ty payload) m).delivered = [] := by
  simp [handle, runAction, Action.type, hres, hacc]

/-- Witness for C1 at a concrete denying registration. -/
theorem access_denied_single_undo_witness :
    (handle [] [] cfgDeny "n1" [] (Action.app "X" "p") metaC1).emitted =
      [⟨"n1", Action.undo metaC1.id "denied"⟩] ∧
    (handle [] [] cfgDeny "n1" [] (Action.app "X" "p") metaC1).status =
      some Status.error ∧
    (handle [] [] cfgDeny "n1" [] (Action.app "X" "p") metaC1).processRuns = 0 ∧
    (handle [] [] cfgDeny "n1" [] (Action.app "X" "p") metaC1).delivered = [] :=
  access_denied_single_undo [] [] cfgDeny "n1" [] "X" "p" metaC1 denyCb rfl rfl

/-- C2 counterexample: a client holding an active subscription to a channel
named in the meta's channel targets is nevertheless excluded from the
delivery set when that subscription's filter predicate rejects the
action, so the delivery set is not always the plain union of the four
target kinds. -/
theorem filter_excludes_channel_target :
    (cexSub.nodeId = cexClient.nodeId ∧ cexSub.channel ∈ channelTargets cexMeta) ∧
    broadcastTargets [cexClient] [cexSub] (Action.app "X" "p") cexMeta = [] :=
  ⟨⟨rfl, by decide⟩, rfl⟩

/-- C7: a `logux/subscribe` action is never rebroadcast: its pipeline run
hands nothing to the broadcast router, and every message it emits targets
the originating client. -/
theorem subscribe_never_rebroadcast (registry : List ServerClient)
    (subs : List Subscription) (cfg : ServerConfig) (origin : String)
    (log : List LogEntry) (ch : String) (since : Option Nat) (m : ServerMeta) :
    (handle registry subs cfg origin log (Action.subscribe ch since) m).delivered = [] ∧
    ∀ e ∈ (handle registry subs cfg origin log (Action.subscribe ch since) m).emitted,
      e.target = origin := by
  simp only [handle]
  unfold runSubscribe
  rcases hr : resolveChannel cfg ch with _ | ⟨cb, ps⟩
  · simp [hr]
  · rcases ha : cb.access ps (Action.subscribe ch since) m with r | b
    · simp [hr, ha]
    · cases b
      · simp [hr, ha]
      · rcases hi : cb.init with _ | ini
        · simp [hr, ha, hi]
        · rcases hb : ini ps (Action.subscribe ch since) m with r | boots
          · simp [hr, ha, hi, hb]
          · simp only [hr, ha, hi, hb]
            refine ⟨by simp, ?_⟩
            intro e he
            simp only [List.mem_append, List.mem_map, List.mem_singleton] at he
            rcases he with ⟨b, _, rfl⟩ | rfl <;> rfl

/-- Witness for C7 at a concrete subscribe action. -/
theorem subscribe_never_rebroadcast_witness :
    (handle [] [] cfgEmpty "n1" [] (Action.subscribe "C" none) meta9).delivered = [] :=
  (subscribe_never_rebroadcast [] [] cfgEmpty "n1" [] "C" none meta9).1

/-- C8: a `logux/unsubscribe` action performs no access check, removes the
matching subscriptions for that client and channel, and runs the channel's
finally callback when one is defined. -/
theorem unsubscribe_skips_access (registry : List ServerClient)
    (subs : List Subscription) (cfg : ServerConfig) (origin : String)
    (log : List LogEntry) (ch : String) (m : ServerMeta)
    (cb : ChannelCallbacks) (ps : List (String × String))
    (hres : resolveChannel cfg ch = some (cb, ps)) :
    (handle registry subs cfg origin log (Action.unsubscribe ch) m).accessRuns = 0 ∧
    (handle registry subs cfg origin log (Action.unsubscribe ch) m).subs =
      subs.filter (fun s => !(s.nodeId == origin && s.channel == ch)) ∧
    (handle registry subs cfg origin log (Action.unsubscribe ch) m).finallyRuns =
      (if cb.fin then 1 else 0) := by
  simp [handle, runUnsubscribe, hres]

/-- Witness for C8 at a concrete channel registration and subscription
table. -/
theorem unsubscribe_skips_access_witness :
    (handle [] subs8 cfgChan "n1" [] (Action.unsubscribe "user/42") meta8).accessRuns = 0 ∧
    (handle [] subs8 cfgChan "n1" [] (Action.unsubscribe "user/42") meta8).subs =
      subs8.filter (fun s => !(s.nodeId == "n1" && s.channel == "user/42")) ∧
    (handle [] subs8 cfgChan "n1" [] (Action.unsubscribe "user/42") meta8).finallyRuns =
      (if finChanCb.fin then 1 else 0) :=
  unsubscribe_skips_access [] subs8 cfgChan "n1" [] "user/42" meta8 finChanCb
    [("id", "42")] rfl

/-- C2 (amended): the broadcast router delivers an action to exactly the
union of the channel-subscription targets whose filter (if any) admits the
action, the user targets, the node targets and the client targets — no
other client — and each connected client is delivered to at most once even
when several target kinds match. -/
theorem broadcast_union_with_filters (registry : List ServerClient)
    (subs : List Subscription) (a : Action) (m : ServerMeta)
    (hnd : registry.Nodup) :
    (broadcastTargets registry subs a m).Nodup ∧
    (∀ c, (broadcastTargets registry subs a m).count c ≤ 1) ∧
    (∀ c, c ∈ broadcastTargets registry subs a m ↔
      (c ∈ registry ∧
        ((∃ s ∈ subs, s.nodeId = c.nodeId ∧ s.channel ∈ channelTargets m ∧
            filterAdmits s.filter a (normalizeResend m) = true) ∨
         (∃ u, c.userId = some u ∧ u ∈ userTargets m) ∨
         c.nodeId ∈ nodeTargets m ∨
         c.clientId ∈ clientTargets m))) := by
  have hnodup : (broadcastTargets registry subs a m).Nodup :=
    List.Nodup.filter _ hnd
  refine ⟨hnodup, fun c => List.nodup_iff_count_le_one.mp hnodup c, fun c => ?_⟩
  obtain ⟨co, nid, cid, uid, au⟩ := c
  cases uid <;>
    simp [broadcastTargets, List.mem_filter, metaMatches, subAdmits,
      channelTargets_normalize, userTargets_normalize, clientTargets_normalize,
      nodeTargets_normalize, and_assoc, or_assoc]

/-- Witness for C2 (amended) on the fan-out scenario with
`users = [u1, u2]`: the client with user id `u1` and zero channel
subscriptions is delivered to, the client with user id `u3` is not. -/
theorem broadcast_union_with_filters_witness :
    wClientA ∈ broadcastTargets [wClientA, wClientB, wClientC] []
      (Action.app "X" "p") wMeta ∧
    wClientC ∉ broadcastTargets [wClientA, wClientB, wClientC] []
      (Action.app "X" "p") wMeta := by
  have h := broadcast_union_with_filters [wClientA, wClientB, wClientC] []
    (Action.app "X" "p") wMeta (by decide)
  constructor
  · exact (h.2.2 wClientA).mpr ⟨by decide, Or.inr (Or.inl ⟨"u1", rfl, by decide⟩)⟩
  · intro hmem
    rcases ((h.2.2 wClientC).mp hmem).2 with ⟨s, hs, -⟩ | ⟨u, hu, hmem2⟩ | hn | hc
    · exact absurd hs (List.not_mem_nil s)
    · rw [show wClientC.userId = some "u3" from rfl] at hu
      obtain rfl : "u3" = u := Option.some.inj hu
      exact absurd hmem2 (by decide)
    · exact absurd hn (by decide)
    · exact absurd hc (by decide)

/-- The resend merge leaves the action id unchanged. -/
theorem applyResend_id (m : ServerMeta) (r : Resend) :
    (applyResend m r).id = m.id := rfl

/-- Duplicate-id short circuit of the action pipeline: after a passing
access check, a run whose id is already in the log changes nothing and runs
no further callback. -/
theorem runAction_dup (registry : List ServerClient) (subs : List Subscription)
    (cfg : ServerConfig) (origin : String) (log : List LogEntry) (a : Action)
    (m : ServerMeta) (cb : ActionCallbacks)
    (hres : resolveType cfg a.type = some cb)
    (hacc : cb.access a m = Except.ok true)
    (hdup : m.id ∈ logIds log) :
    runAction registry subs cfg origin log a m =
      { status := none, statusWrites := 0, emitted := [], delivered := [],
        processRuns := 0, finallyRuns := 0, accessRuns := 1, log := log,
        subs := subs, signals := [] } := by
  simp [runAction, hres, hacc, hdup]

/-- Shape of a first (fresh-id) run of the action pipeline after a passing
access check: exactly one appended log entry carrying the action's id, one
process invocation when a process callback is registered, one finally
invocation when a finally callback is registered, and one terminal status
write. -/
theorem runAction_fresh_shape (registry : List ServerClient)
    (subs : List Subscription) (cfg : ServerConfig) (origin : String)
    (log : List LogEntry) (a : Action) (m : ServerMeta) (cb : ActionCallbacks)
    (hres : resolveType cfg a.type = some cb)
    (hacc : cb.access a m = Except.ok true)
    (hfresh : m.id ∉ logIds log) :
    ∃ entry : LogEntry,
      entry.meta.id = m.id ∧
      (runAction registry subs cfg origin log a m).log = log ++ [entry] ∧
      (runAction registry subs cfg origin log a m).processRuns =
        (if cb.process.isSome then 1 else 0) ∧
      (runAction registry subs cfg origin log a m).finallyRuns =
        (if cb.fin then 1 else 0) ∧
      (runAction registry subs cfg origin log a m).statusWrites = 1 ∧
      ((runAction registry subs cfg origin log a m).status = some Status.processed ∨
       (runAction registry subs cfg origin log a m).status = some Status.error) := by
  rcases hrs : cb.resend with _ | rs
  · rcases hp : cb.process with _ | proc
    · refine ⟨⟨a, { m with status := some Status.processed }⟩,
        ?_, ?_, ?_, ?_, ?_, ?_⟩ <;>
        simp [runAction, applyResend_id, hres, hacc, hrs, hp, if_neg hfresh]
    · rcases hout : proc a m with r | u
      · refine ⟨⟨a, { m with status := some Status.error }⟩,
          ?_, ?_, ?_, ?_, ?_, ?_⟩ <;>
          simp [runAction, applyResend_id, hres, hacc, hrs, hp, hout, if_neg hfresh]
      · refine ⟨⟨a, { m with status := some Status.processed }⟩,
          ?_, ?_, ?_, ?_, ?_, ?_⟩ <;>
          simp [runAction, applyResend_id, hres, hacc, hrs, hp, hout, if_neg hfresh]
  · rcases hp : cb.process with _ | proc
    · refine ⟨⟨a, { applyResend m (rs a m) with status := some Status.processed }⟩,
        ?_, ?_, ?_, ?_, ?_, ?_⟩ <;>
        simp [runAction, applyResend_id, hres, hacc, hrs, hp, if_neg hfresh]
    · rcases hout : proc a (applyResend m (rs a m)) with r | u
      · refine ⟨⟨a, { applyResend m (rs a m) with status := some Status.error }⟩,
          ?_, ?_, ?_, ?_, ?_, ?_⟩ <;>
          simp [runAction, applyResend_id, hres, hacc, hrs, hp, hout, if_neg hfresh]
      · refine ⟨⟨a, { applyResend m (rs a m) with status := some Status.processed }⟩,
          ?_, ?_, ?_, ?_, ?_, ?_⟩ <;>
          simp [runAction, applyResend_id, hres, hacc, hrs, hp, hout, if_neg hfresh]

/-- C4: for an action whose id is already present in the log, re-appending
is a no-op — the append is rejected, the pipeline short-circuits running
neither process nor finally, nothing is broadcast or emitted, and no status
is written. -/
theorem duplicate_append_noop (registry : List ServerClient)
    (subs : List Subscription) (cfg : ServerConfig) (origin : String)
    (log : List LogEntry) (ty payload : String) (m : ServerMeta)
    (cb : ActionCallbacks)
    (hres : resolveType cfg ty = some cb)
    (hacc : cb.access (Action.app ty payload) m = Except.ok true)
    (hdup : m.id ∈ logIds log) :
    (handle registry subs cfg origin log (Action.app ty payload) m).log = log ∧
    (handle registry subs cfg origin log (Action.app ty payload) m).processRuns = 0 ∧
    (handle registry subs cfg origin log (Action.app ty payload) m).finallyRuns = 0 ∧
    (handle registry subs cfg origin log (Action.app ty payload) m).delivered = [] ∧
    (handle registry subs cfg origin log (Action.app ty payload) m).emitted = [] ∧
    (handle registry subs cfg origin log (Action.app ty payload) m).statusWrites = 0 := by
  have h := runAction_dup registry subs cfg origin log (Action.app ty payload)
    m cb hres hacc hdup
  simp [handle, h]

/-- Witness for C4 at a concrete registration and a log already holding the
action's id. -/
theorem duplicate_append_noop_witness :
    (handle [] [] cfgDup "n1" logD (Action.app "X" "p") metaD).log = logD ∧
    (handle [] [] cfgDup "n1" logD (Action.app "X" "p") metaD).processRuns = 0 ∧
    (handle [] [] cfgDup "n1" logD (Action.app "X" "p") metaD).finallyRuns = 0 ∧
    (handle [] [] cfgDup "n1" logD (Action.app "X" "p") metaD).delivered = [] ∧
    (handle [] [] cfgDup "n1" logD (Action.app "X" "p") metaD).emitted = [] ∧
    (handle [] [] cfgDup "n1" logD (Action.app "X" "p") metaD).statusWrites = 0 :=
  duplicate_append_noop [] [] cfgDup "n1" logD "X" "p" metaD dupCb rfl rfl
    (by decide)

/-- C3: for an action that passes its access check, across its first run
and a subsequent duplicate delivery the process callback is invoked at most
once in total and the finally callback (when registered) exactly once in
total, regardless of whether process succeeds or fails. -/
theorem process_once_finally_once (registry : List ServerClient)
    (subs : List Subscription) (cfg : ServerConfig) (origin : String)
    (log : List LogEntry) (ty payload : String) (m : ServerMeta)
    (cb : ActionCallbacks)
    (hres : resolveType cfg ty = some cb)
    (hacc : cb.access (Action.app ty payload) m = Except.ok true)
    (hfresh : m.id ∉ logIds log) :
    (handle registry subs cfg origin log (Action.app ty payload) m).processRuns +
      (handle registry subs cfg origin
        (handle registry subs cfg origin log (Action.app ty payload) m).log
        (Action.app ty payload) m).processRuns ≤ 1 ∧
    (cb.fin = true →
      (handle registry subs cfg origin log (Action.app ty payload) m).finallyRuns +
        (handle registry subs cfg origin
          (handle registry subs cfg origin log (Action.app ty payload) m).log
          (Action.app ty payload) m).finallyRuns = 1) := by
  obtain ⟨entry, hid, hlog, hproc, hfin, -, -⟩ :=
    runAction_fresh_shape registry subs cfg origin log (Action.app ty payload)
      m cb hres hacc hfresh
  have hdup : m.id ∈
      logIds ((runAction registry subs cfg origin log (Action.app ty payload) m).log) := by
    rw [hlog]
    unfold logIds
    rw [List.map_append]
    exact List.mem_append_right _ (by simp [hid])
  have h2 := runAction_dup registry subs cfg origin
    ((runAction registry subs cfg origin log (Action.app ty payload) m).log)
    (Action.app ty payload) m cb hres hacc hdup
  simp only [handle] at hproc hfin ⊢
  rw [h2, hproc, hfin]
  constructor
  · cases cb.process <;> simp
  · intro hf
    rw [hf]
    simp

/-- Witness for C3 at a concrete registration whose process callback
fails. -/
theorem process_once_finally_once_witness :
    (handle [] [] cfg3 "n1" [] (Action.app "X" "p") meta3).processRuns +
      (handle [] [] cfg3 "n1"
        (handle [] [] cfg3 "n1" [] (Action.app "X" "p") meta3).log
        (Action.app "X" "p") meta3).processRuns ≤ 1 ∧
    (handle [] [] cfg3 "n1" [] (Action.app "X" "p") meta3).finallyRuns +
      (handle [] [] cfg3 "n1"
        (handle [] [] cfg3 "n1" [] (Action.app "X" "p") meta3).log
        (Action.app "X" "p") meta3).finallyRuns = 1 := by
  have h := process_once_finally_once [] [] cfg3 "n1" [] "X" "p" meta3 cb3
    rfl rfl (by decide)
  exact ⟨h.1, h.2 rfl⟩

/-- C5: meta's status starts as `waiting` at ingestion; the action pipeline
writes the status at most once per run, any written status is terminal
(`processed` or `error`), `Status` admits no value outside the three, and
for an admitted action the status is written exactly once — the subsequent
duplicate run writes none. -/
theorem status_lifecycle (registry : List ServerClient)
    (subs : List Subscription) (cfg : ServerConfig) (origin : String)
    (log : List LogEntry) (a : Action) (m : ServerMeta) (cb : ActionCallbacks)
    (hres : resolveType cfg a.type = some cb) :
    (ingestMeta m.id m.time m.server).status = some Status.waiting ∧
    (∀ s : Status, s = Status.waiting ∨ s = Status.processed ∨ s = Status.error) ∧
    (runAction registry subs cfg origin log a m).statusWrites ≤ 1 ∧
    (∀ st, (runAction registry subs cfg origin log a m).status = some st →
      st = Status.processed ∨ st = Status.error) ∧
    (cb.access a m = Except.ok true → m.id ∉ logIds log →
      (runAction registry subs cfg origin log a m).statusWrites = 1 ∧
      (runAction registry subs cfg origin
        (runAction registry subs cfg origin log a m).log a m).statusWrites = 0) := by
  have key : (runAction registry subs cfg origin log a m).statusWrites ≤ 1 ∧
      ∀ st, (runAction registry subs cfg origin log a m).status = some st →
        st = Status.processed ∨ st = Status.error := by
    rcases hacc : cb.access a m with r | b
    · simp [runAction, hres, hacc]
    · cases b
      · simp [runAction, hres, hacc]
      · rcases hrs : cb.resend with _ | rs
        · by_cases hdup : m.id ∈ logIds log
          · simp [runAction, hres, hacc, hrs, hdup]
          · rcases hp : cb.process with _ | proc
            · simp [runAction, hres, hacc, hrs, hdup, hp]
            · rcases hout : proc a m with r | u
              · simp [runAction, hres, hacc, hrs, hdup, hp, hout]
              · simp [runAction, hres, hacc, hrs, hdup, hp, hout]
        · by_cases hdup : m.id ∈ logIds log
          · simp [runAction, hres, hacc, hrs, hdup]
          · rcases hp : cb.process with _ | proc
            · simp [runAction, hres, hacc, hrs, hdup, hp]
            · rcases hout : proc a (applyResend m (rs a m)) with r | u
              · simp [runAction, hres, hacc, hrs, hdup, hp, hout]
              · simp [runAction, hres, hacc, hrs, hdup, hp, hout]
  refine ⟨rfl, fun s => by cases s <;> simp, key.1, key.2, ?_⟩
  intro hacc hfresh
  obtain ⟨entry, hid, hlog, -, -, hw, -⟩ :=
    runAction_fresh_shape registry subs cfg origin log a m cb hres hacc hfresh
  have hdup : m.id ∈ logIds ((runAction registry subs cfg origin log a m).log) := by
    rw [hlog]
    unfold logIds
    rw [List.map_append]
    exact List.mem_append_right _ (by simp [hid])
  have h2 := runAction_dup registry subs cfg origin
    ((runAction registry subs cfg origin log a m).log) a m cb hres hacc hdup
  rw [h2]
  exact ⟨hw, rfl⟩

/-- Witness for C5 at a concrete accepting registration: the ingested
status is waiting, the first run writes the status once, and the duplicate
run writes none. -/
theorem status_lifecycle_witness :
    (ingestMeta meta5.id meta5.time meta5.server).status = some Status.waiting ∧
    (runAction [] [] cfgDup "n1" [] (Action.app "X" "p") meta5).statusWrites = 1 ∧
    (runAction [] [] cfgDup "n1"
      (runAction [] [] cfgDup "n1" [] (Action.app "X" "p") meta5).log
      (Action.app "X" "p") meta5).statusWrites = 0 := by
  have h := status_lifecycle [] [] cfgDup "n1" [] (Action.app "X" "p") meta5
    dupCb rfl
  exact ⟨h.1, (h.2.2.2.2 rfl (by decide)).1, (h.2.2.2.2 rfl (by decide)).2⟩

/-- Every run of the action pipeline on a fresh id emits an
acknowledgement carrying the action's id to the originator. -/
theorem runAction_ack (registry : List ServerClient) (subs : List Subscription)
    (cfg : ServerConfig) (origin : String) (log : List LogEntry) (a : Action)
    (m : ServerMeta) (hfresh : m.id ∉ logIds log) :
    ∃ e ∈ (runAction registry subs cfg origin log a m).emitted,
      e.target = origin ∧ isAck m.id e = true := by
  rcases hrt : resolveType cfg a.type with _ | cb
  · refine ⟨⟨origin, Action.undo m.id "unknownType"⟩, ?_, rfl, ?_⟩ <;>
      simp [runAction, hrt, isAck]
  · rcases hacc : cb.access a m with r | b
    · refine ⟨⟨origin, Action.undo m.id r⟩, ?_, rfl, ?_⟩ <;>
        simp [runAction, hrt, hacc, isAck]
    · cases b
      · refine ⟨⟨origin, Action.undo m.id "denied"⟩, ?_, rfl, ?_⟩ <;>
          simp [runAction, hrt, hacc, isAck]
      · rcases hrs : cb.resend with _ | rs
        · rcases hp : cb.process with _ | proc
          · refine ⟨⟨origin, Action.processedAck m.id⟩, ?_, rfl, ?_⟩ <;>
              simp [runAction, hrt, hacc, hrs, hp, if_neg hfresh, isAck]
          · rcases hout : proc a m with r | u
            · refine ⟨⟨origin, Action.undo m.id "error"⟩, ?_, rfl, ?_⟩ <;>
                simp [runAction, hrt, hacc, hrs, hp, hout, if_neg hfresh, isAck]
            · refine ⟨⟨origin, Action.processedAck m.id⟩, ?_, rfl, ?_⟩ <;>
                simp [runAction, hrt, hacc, hrs, hp, hout, if_neg hfresh, isAck]
        · rcases hp : cb.process with _ | proc
          · refine ⟨⟨origin, Action.processedAck m.id⟩, ?_, rfl, ?_⟩ <;>
              simp [runAction, hrt, hacc, hrs, hp, if_neg hfresh, isAck]
          · rcases hout : proc a (applyResend m (rs a m)) with r | u
            · refine ⟨⟨origin, Action.undo m.id "error"⟩, ?_, rfl, ?_⟩ <;>
                simp [runAction, hrt, hacc, hrs, hp, hout, if_neg hfresh, isAck]
            · refine ⟨⟨origin, Action.processedAck m.id⟩, ?_, rfl, ?_⟩ <;>
                simp [runAction, hrt, hacc, hrs, hp, hout, if_neg hfresh, isAck]

/-- Every run of the subscribe path of the channel pipeline emits an
acknowledgement carrying the action's id to the originator. -/
theorem runSubscribe_ack (cfg : ServerConfig) (origin : String)
    (subs : List Subscription) (log : List LogEntry) (ch : String)
    (since : Option Nat) (m : ServerMeta) :
    ∃ e ∈ (runSubscribe cfg origin subs log ch since m).emitted,
      e.target = origin ∧ isAck m.id e = true := by
  rcases hr : resolveChannel cfg ch with _ | ⟨cb, ps⟩
  · refine ⟨⟨origin, Action.undo m.id "wrongChannel"⟩, ?_, rfl, ?_⟩ <;>
      simp [runSubscribe, hr, isAck]
  · rcases ha : cb.access ps (Action.subscribe ch since) m with r | b
    · refine ⟨⟨origin, Action.undo m.id r⟩, ?_, rfl, ?_⟩ <;>
        simp [runSubscribe, hr, ha, isAck]
    · cases b
      · refine ⟨⟨origin, Action.undo m.id "denied"⟩, ?_, rfl, ?_⟩ <;>
          simp [runSubscribe, hr, ha, isAck]
      · rcases hi : cb.init with _ | ini
        · refine ⟨⟨origin, Action.processedAck m.id⟩, ?_, rfl, ?_⟩ <;>
            simp [runSubscribe, hr, ha, hi, isAck]
        · rcases hb : ini ps (Action.subscribe ch since) m with r | boots
          · refine ⟨⟨origin, Action.undo m.id "error"⟩, ?_, rfl, ?_⟩ <;>
              simp [runSubscribe, hr, ha, hi, hb, isAck]
          · refine ⟨⟨origin, Action.processedAck m.id⟩, ?_, rfl, ?_⟩ <;>
              simp [runSubscribe, hr, ha, hi, hb, isAck]

/-- C9: for every action whose id is not yet in the log — its first
delivery — the originating client receives an acknowledgement:
a `logux/processed` or `logux/undo` carrying that action's id, on every
path, including unknown types and failed channel pattern resolution. -/
theorem origin_always_acknowledged (registry : List ServerClient)
    (subs : List Subscription) (cfg : ServerConfig) (origin : String)
    (log : List LogEntry) (a : Action) (m : ServerMeta)
    (hfresh : m.id ∉ logIds log) :
    ∃ e ∈ (handle registry subs cfg origin log a m).emitted,
      e.target = origin ∧ isAck m.id e = true := by
  cases a with
  | subscribe ch since => exact runSubscribe_ack cfg origin subs log ch since m
  | unsubscribe ch =>
      exact ⟨⟨origin, Action.processedAck m.id⟩,
        by simp [handle, runUnsubscribe], rfl, by simp [isAck]⟩
  | processedAck i => exact runAction_ack registry subs cfg origin log _ m hfresh
  | undo i r => exact runAction_ack registry subs cfg origin log _ m hfresh
  | app t p => exact runAction_ack registry subs cfg origin log _ m hfresh

/-- Witness for C9: even with no registrations at all, a fresh action is
never met with silence. -/
theorem origin_always_acknowledged_witness :
    (handle [] [] cfgEmpty "n1" [] (Action.app "Z" "q") meta9).emitted ≠ [] := by
  obtain ⟨e, he, -, -⟩ := origin_always_acknowledged [] [] cfgEmpty "n1" []
    (Action.app "Z" "q") meta9 (by decide)
  intro hnil
  rw [hnil] at he
  exact absurd he (List.not_mem_nil e)

/-- A successful registry lookup names an entry of the registry. -/
theorem regLookup_mem {reg : List (String × ServerClient)} {n : String}
    {c : ServerClient} (h : regLookup reg n = some c) : (n, c) ∈ reg := by
  induction reg with
  | nil => simp [regLookup] at h
  | cons p ps ih =>
      obtain ⟨k, v⟩ := p
      cases hkn : k == n with
      | false =>
          have h' : regLookup ps n = some c := by
            simpa [regLookup, hkn] using h
          exact List.mem_cons_of_mem _ (ih h')
      | true =>
          have hk : k = n := by simpa using hkn
          have hv : v = c := by simpa [regLookup, hkn] using h
          subst hk
          subst hv
          exact List.mem_cons_self _ _

/-- C10: a new authenticated connection claiming a node id already present
in the registry fires the `zombie` signal before the `installed` event,
keeps the registry mapping each node id to at most one client, maps the
node id to the new client, evicts the prior client, and the evicted client
is never again a broadcast target of the resulting registry. -/
theorem zombie_evicts_prior_connection (reg : List (String × ServerClient))
    (c old : ServerClient)
    (hkeys : (reg.map Prod.fst).Nodup)
    (hwf : ∀ p ∈ reg, (Prod.snd p).nodeId = p.1)
    (hold : regLookup reg c.nodeId = some old)
    (hconn : old.conn ≠ c.conn) :
    (connect reg c).2 = [ConnEvent.zombie c.nodeId, ConnEvent.installed c.nodeId] ∧
    ((connect reg c).1.map Prod.fst).Nodup ∧
    regLookup (connect reg c).1 c.nodeId = some c ∧
    old ∉ (connect reg c).1.map Prod.snd ∧
    (∀ subs a m, old ∉ broadcastTargets ((connect reg c).1.map Prod.snd) subs a m) := by
  have hc : connect reg c =
      ((c.nodeId, c) :: reg.filter (fun p => !(p.1 == c.nodeId)),
       [ConnEvent.zombie c.nodeId, ConnEvent.installed c.nodeId]) := by
    simp [connect, hold]
  have hOldNode : old.nodeId = c.nodeId := hwf _ (regLookup_mem hold)
  have hNotMem :
      old ∉ ((c.nodeId, c) :: reg.filter (fun p => !(p.1 == c.nodeId))).map Prod.snd := by
    intro hmem
    simp only [List.map_cons, List.mem_cons, List.mem_map] at hmem
    rcases hmem with heq | ⟨p, hpf, hpsnd⟩
    · exact hconn (by rw [heq])
    · have hpmem := (List.mem_filter.mp hpf).1
      have hpcond := (List.mem_filter.mp hpf).2
      have hp1 : p.1 ≠ c.nodeId := by simpa using hpcond
      have hpn := hwf p hpmem
      rw [hpsnd] at hpn
      exact hp1 (by rw [← hpn, hOldNode])
  refine ⟨by rw [hc], ?_, ?_, ?_, ?_⟩
  · rw [hc]
    simp only [List.map_cons]
    refine List.nodup_cons.mpr ⟨?_, ?_⟩
    · intro hmem
      simp only [List.mem_map] at hmem
      obtain ⟨p, hpf, hp1⟩ := hmem
      have hpcond := (List.mem_filter.mp hpf).2
      have : p.1 ≠ c.nodeId := by simpa using hpcond
      exact this hp1
    · have hsub : List.Sublist
          ((reg.filter (fun p => !(p.1 == c.nodeId))).map Prod.fst)
          (reg.map Prod.fst) := (List.filter_sublist _).map Prod.fst
      exact hkeys.sublist hsub
  · rw [hc]
    simp [regLookup]
  · rw [hc]
    exact hNotMem
  · intro subs a m hmem2
    rw [hc] at hmem2
    exact hNotMem (List.mem_filter.mp hmem2).1

/-- Witness for C10: a reconnect with node id `n1` evicts the prior
client. -/
theorem zombie_evicts_prior_connection_witness :
    (connect reg10 newClient).2 =
      [ConnEvent.zombie "n1", ConnEvent.installed "n1"] ∧
    regLookup (connect reg10 newClient).1 "n1" = some newClient ∧
    oldClient ∉ (connect reg10 newClient).1.map Prod.snd := by
  have h := zombie_evicts_prior_connection reg10 newClient oldClient
    (by decide) (by decide) rfl (by decide)
  exact ⟨h.1, h.2.2.1, h.2.2.2.1⟩

end Logux
